import Mathlib

/-!
Shallow embedding of the overstory fleet-health engine pieces that the
claims concern: the merge-queue doctor check (`checkMergeQueue` in
`src/doctor/merge-queue.ts`), the tmux session lister (`listSessions` in
`src/worktree/tmux.ts`), and the consistency reconciler
(`checkConsistency`, modelled from the spec since `consistency.ts` is not
among the sources).

JavaScript runtime values reachable from `JSON.parse` plus `undefined`
are modelled by `JSVal`; numbers are modelled as integers (no numeric
field of the merge queue participates in arithmetic, only in truthiness).
-/

inductive JSVal where
  | undefined : JSVal
  | null : JSVal
  | bool : Bool → JSVal
  | num : Int → JSVal
  | str : String → JSVal
  | arr : List JSVal → JSVal
  | obj : List (String × JSVal) → JSVal
deriving Repr

/-- JavaScript truthiness test `!v` (negated): `undefined`, `null`, `false`,
`0` and `""` are falsy; every object and array is truthy. -/
def isFalsy : JSVal → Bool
  | .undefined => true
  | .null => true
  | .bool b => !b
  | .num n => n == 0
  | .str s => s == ""
  | .arr _ => false
  | .obj _ => false

/-- Models `typeof v === "string"`. -/
def isStringV : JSVal → Bool
  | .str _ => true
  | _ => false

/-- Models `Array.isArray(v)`. -/
def isArrayV : JSVal → Bool
  | .arr _ => true
  | _ => false

/-- Models `v === null` (strict equality against the null literal). -/
def isNullV : JSVal → Bool
  | .null => true
  | _ => false

/-- A value that is a non-empty string; this is exactly the complement of
`!v || typeof v !== "string"` used by the per-field checks. -/
def isNonEmptyStr : JSVal → Bool
  | .str s => s != ""
  | _ => false

/-- Primitive values: the ones JavaScript compares by value (SameValueZero);
arrays and objects compare by reference. -/
def isPrim : JSVal → Bool
  | .arr _ => false
  | .obj _ => false
  | _ => true

/-- SameValueZero equality as used by `Set.has` and `Map` keys. Two values
produced at distinct places of a `JSON.parse` result are distinct references,
so array/object operands never compare equal here. -/
def sameValueZero : JSVal → JSVal → Bool
  | .undefined, .undefined => true
  | .null, .null => true
  | .bool a, .bool b => a == b
  | .num a, .num b => a == b
  | .str a, .str b => a == b
  | _, _ => false

/-- Property access `v[k]`: `undefined` on anything but an object that has
the key. `JSON.parse` yields one binding per key, so first match suffices. -/
def getField (v : JSVal) (k : String) : JSVal :=
  match v with
  | .obj fs =>
    match fs.find? (fun p => p.1 == k) with
    | some p => p.2
    | none => .undefined
  | _ => .undefined

/-- Models the `typeof` operator (on the values representable here). -/
def jsTypeof : JSVal → String
  | .undefined => "undefined"
  | .null => "object"
  | .bool _ => "boolean"
  | .num _ => "number"
  | .str _ => "string"
  | .arr _ => "object"
  | .obj _ => "object"

/-- Nullish values stringify to the empty string inside array join. -/
def isNullish : JSVal → Bool
  | .undefined => true
  | .null => true
  | _ => false

mutual
/-- Template-literal stringification `${v}` of a value. -/
def jsToString : JSVal → String
  | .undefined => "undefined"
  | .null => "null"
  | .bool b => if b then "true" else "false"
  | .num n => toString n
  | .str s => s
  | .arr xs => jsListToString xs
  | .obj _ => "[object Object]"

/-- Array stringification: elements joined by commas, nullish elements
rendered as the empty string. -/
def jsListToString : List JSVal → String
  | [] => ""
  | x :: rest =>
    let head := if isNullish x then "" else jsToString x
    match rest with
    | [] => head
    | _ :: _ => head ++ "," ++ jsListToString rest
end

/-- Models `String.prototype.trim` by character-list operations (the
whitespace appearing in these files is ASCII). Defined this way so that it
evaluates on concrete inputs. -/
def jsTrim (s : String) : String :=
  String.mk (((s.toList.dropWhile Char.isWhitespace).reverse.dropWhile
    Char.isWhitespace).reverse)

/-- The `validStatuses` set of `checkMergeQueue`. -/
def validStatuses : List String := ["pending", "merging", "merged", "conflict", "failed"]

/-- The `validTiers` set of `checkMergeQueue`. -/
def validTiers : List String := ["clean-merge", "auto-resolve", "ai-resolve", "reimagine"]

/-- Models `validStatuses.has(v)`: the set holds only strings. -/
def statusHas : JSVal → Bool
  | .str s => validStatuses.contains s
  | _ => false

/-- Models `validTiers.has(v)`. -/
def tierHas : JSVal → Bool
  | .str s => validTiers.contains s
  | _ => false

inductive CheckStatus where
  | pass : CheckStatus
  | warn : CheckStatus
  | fail : CheckStatus
deriving DecidableEq, Repr

/-- The `DoctorCheck` record of `src/doctor/types.ts`; absent optional
fields are rendered as `[]` and `false`. -/
structure DoctorCheck where
  name : String
  category : String
  status : CheckStatus
  message : String
  details : List String := []
  fixable : Bool := false
deriving DecidableEq, Repr

/-- Message pushed for an invalid `status` field. -/
def statusIssueMsg (e : JSVal) : String :=
  "invalid status: " ++ jsToString (getField e "status")

/-- Message pushed for an invalid `resolvedTier` field. -/
def tierIssueMsg (e : JSVal) : String :=
  "invalid resolvedTier: " ++ jsToString (getField e "resolvedTier")

/-- The per-entry issue list built by the validation loop of
`checkMergeQueue` (same field order as the source). -/
def entryIssues (e : JSVal) : List String :=
  (if isFalsy (getField e "branchName") || !isStringV (getField e "branchName")
    then ["missing or invalid branchName"] else []) ++
  (if isFalsy (getField e "beadId") || !isStringV (getField e "beadId")
    then ["missing or invalid beadId"] else []) ++
  (if isFalsy (getField e "agentName") || !isStringV (getField e "agentName")
    then ["missing or invalid agentName"] else []) ++
  (if !isArrayV (getField e "filesModified")
    then ["missing or invalid filesModified array"] else []) ++
  (if isFalsy (getField e "enqueuedAt") || !isStringV (getField e "enqueuedAt")
    then ["missing or invalid enqueuedAt"] else []) ++
  (if isFalsy (getField e "status") || !statusHas (getField e "status")
    then [statusIssueMsg e] else []) ++
  (if !isNullV (getField e "resolvedTier") && !tierHas (getField e "resolvedTier")
    then [tierIssueMsg e] else [])

/-- Spec-side restatement of the structural entry rules, for comparison
with the per-entry issue computation: `branchName`, `beadId`, `agentName`,
`enqueuedAt` non-empty strings; `filesModified` an array; `status` in the
status enum; `resolvedTier` null or in the tier enum. -/
def entryStructurallyValid (e : JSVal) : Bool :=
  isNonEmptyStr (getField e "branchName") &&
  isNonEmptyStr (getField e "beadId") &&
  isNonEmptyStr (getField e "agentName") &&
  isArrayV (getField e "filesModified") &&
  isNonEmptyStr (getField e "enqueuedAt") &&
  statusHas (getField e "status") &&
  (isNullV (getField e "resolvedTier") || tierHas (getField e "resolvedTier"))

/-- Models `entry.branchName || "unknown"` interpolated into the entry label. -/
def branchLabel (e : JSVal) : String :=
  let b := getField e "branchName"
  if isFalsy b then "unknown" else jsToString b

/-- Description string for one invalid entry at index `i`. -/
def entryDesc (i : Nat) (e : JSVal) : String :=
  let issues := String.intercalate ", " (entryIssues e)
  "Entry " ++ toString i ++ " (" ++ branchLabel e ++ "): " ++ issues

/-- The index-carrying loop collecting invalid-entry descriptions: falsy
entries are skipped (`if (!entry) continue`), entries with issues are
described in order. -/
def invalidEntriesAux : Nat → List JSVal → List String
  | _, [] => []
  | i, e :: rest =>
    (if isFalsy e then []
      else if (entryIssues e).isEmpty then []
      else [entryDesc i e]) ++ invalidEntriesAux (i + 1) rest

def invalidEntries (entries : List JSVal) : List String :=
  invalidEntriesAux 0 entries

/-- Strict comparison `entry.status === s` for a string literal `s`. -/
def statusIs (e : JSVal) (s : String) : Bool :=
  match getField e "status" with
  | .str s' => s' == s
  | _ => false

/-- The 24-hour staleness threshold, in milliseconds. -/
def staleThresholdMs : Int := 24 * 60 * 60 * 1000

/-- Staleness description for one entry given its age in milliseconds. -/
def staleFmt (e : JSVal) (ageMs : Int) : String :=
  let h := Int.fdiv ageMs (60 * 60 * 1000)
  jsToString (getField e "branchName") ++ " (" ++ jsToString (getField e "status") ++
    ", " ++ toString h ++ "h old) - may be stuck"

/-- One step of the staleness loop. `jsDate` abstracts
`new Date(x).getTime()` relative to nothing: `none` models an invalid date
(`NaN`), on which every comparison is false, so the entry is skipped. -/
def staleDescOf (jsDate : JSVal → Option Int) (now : Int) (e : JSVal) : Option String :=
  if isFalsy e then none
  else
    match jsDate (getField e "enqueuedAt") with
    | none => none
    | some t =>
      let ageMs := now - t
      if statusIs e "pending" || statusIs e "merging" then
        if staleThresholdMs < ageMs then some (staleFmt e ageMs) else none
      else none

def staleDescs (jsDate : JSVal → Option Int) (now : Int) (entries : List JSVal) : List String :=
  entries.filterMap (staleDescOf jsDate now)

/-- The truthy branch names, in queue order (`if (!entry?.branchName) continue`). -/
def truthyBranches (entries : List JSVal) : List JSVal :=
  entries.filterMap fun e =>
    let b := getField e "branchName"
    if isFalsy b then none else some b

/-- Number of occurrences of `b` in `bs` under SameValueZero. -/
def countSV (b : JSVal) (bs : List JSVal) : Nat :=
  (bs.filter fun x => sameValueZero x b).length

/-- First occurrences of a list under SameValueZero, in order. -/
def dedupSVAux : List JSVal → List JSVal → List JSVal
  | _, [] => []
  | seen, b :: rest =>
    if seen.any (fun x => sameValueZero x b) then dedupSVAux seen rest
    else b :: dedupSVAux (seen ++ [b]) rest

def dupFmt (b : JSVal) (c : Nat) : String :=
  jsToString b ++ " (appears " ++ toString c ++ " times)"

/-- The duplicate-branch detail list. The source accumulates a `Map` from
branch name to count; iterating that map yields the first occurrence of
each key paired with its total occurrence count, which is what is modelled
here directly. -/
def dupDetails (entries : List JSVal) : List String :=
  let bs := truthyBranches entries
  (dedupSVAux [] bs).filterMap fun b =>
    let c := countSV b bs
    if 1 < c then some (dupFmt b c) else none

/-- The checks `checkMergeQueue` runs once the file parsed to an array:
entry validation, staleness, duplicates. -/
def mergeEntryChecks (jsDate : JSVal → Option Int) (now : Int)
    (entries : List JSVal) : List DoctorCheck :=
  let invalid := invalidEntries entries
  let n := invalid.length
  let entriesCheck : List DoctorCheck :=
    if invalid.isEmpty then
      [{ name := "merge-queue.json format", category := "merge", status := .pass,
         message := "All queue entries are valid" }]
    else
      [{ name := "merge-queue.json entries", category := "merge", status := .fail,
         message := s!"Found {n} invalid queue entries", details := invalid, fixable := true }]
  let stale := staleDescs jsDate now entries
  let m := stale.length
  let staleCheck : List DoctorCheck :=
    if stale.isEmpty then []
    else
      [{ name := "merge-queue.json staleness", category := "merge", status := .warn,
         message := s!"Found {m} potentially stale queue entries", details := stale,
         fixable := true }]
  let dups := dupDetails entries
  let dupCheck : List DoctorCheck :=
    if dups.isEmpty then []
    else
      [{ name := "merge-queue.json duplicates", category := "merge", status := .warn,
         message := "Found duplicate branch entries in queue", details := dups,
         fixable := true }]
  entriesCheck ++ staleCheck ++ dupCheck

/-- The state of the merge-queue file on disk. -/
inductive QueueFile where
  | absent : QueueFile
  | present : String → QueueFile

/-- The merge-queue doctor check. The read/parse boundary is made explicit:
`jsonParse` abstracts `JSON.parse` (error carries the parser message),
`jsDate` abstracts timestamp parsing, `now` is the current epoch
millisecond count. -/
def checkMergeQueue (jsonParse : String → Except String JSVal)
    (jsDate : JSVal → Option Int) (now : Int) : QueueFile → List DoctorCheck
  | .absent =>
    [{ name := "merge-queue.json exists", category := "merge", status := .pass,
       message := "No merge queue file (normal for new installations or no merges yet)" }]
  | .present raw =>
    let trimmed := jsTrim raw
    if trimmed = "" then
      [{ name := "merge-queue.json format", category := "merge", status := .pass,
         message := "Merge queue is empty" }]
    else
      match jsonParse trimmed with
      | .error msg =>
        [{ name := "merge-queue.json format", category := "merge", status := .fail,
           message := "Failed to parse merge-queue.json",
           details := [msg, "File may be corrupted or contain invalid JSON"], fixable := true }]
      | .ok (.arr entries) => mergeEntryChecks jsDate now entries
      | .ok v =>
        [{ name := "merge-queue.json format", category := "merge", status := .fail,
           message := "Merge queue must be a JSON array",
           details := [s!"Found: {jsTypeof v}", "Expected: array of MergeEntry objects"],
           fixable := true }]

/-- Result of `runCommand` in `src/worktree/tmux.ts`. -/
structure CmdResult where
  stdout : String
  stderr : String
  exitCode : Int
deriving Repr

/-- Does `needle` start the character list `hay`? -/
def leadsChars : List Char → List Char → Bool
  | _, [] => true
  | [], _ :: _ => false
  | c :: cs, d :: ds => c == d && leadsChars cs ds

/-- Substring search over character lists. -/
def hasSubChars : List Char → List Char → Bool
  | [], needle => needle.isEmpty
  | c :: rest, needle => leadsChars (c :: rest) needle || hasSubChars rest needle

/-- Models `hay.includes(needle)` on strings. -/
def jsIncludes (hay needle : String) : Bool :=
  hasSubChars hay.toList needle.toList

/-- Models `s.startsWith(pre)`, character-list based so it evaluates. -/
def strStarts (s pre : String) : Bool :=
  leadsChars s.toList pre.toList

/-- Models `line.indexOf(":")` followed by the two slices: splits at the
first colon, `none` when no colon occurs. -/
def splitFirstColon : List Char → Option (List Char × List Char)
  | [] => none
  | c :: rest =>
    if c = ':' then some ([], rest)
    else
      match splitFirstColon rest with
      | some (a, b) => some (c :: a, b)
      | none => none

/-- Leading decimal digit run, `none` when the first character is no digit. -/
def leadingNat (cs : List Char) : Option Nat :=
  let ds := cs.takeWhile (fun c => c.isDigit)
  if ds.isEmpty then none
  else some (ds.foldl (fun acc c => acc * 10 + (c.toNat - 48)) 0)

/-- Models `Number.parseInt(s, 10)`: optional leading whitespace and sign,
then a digit run; `none` models `NaN`. -/
def jsParseInt (s : String) : Option Int :=
  let cs := s.toList.dropWhile (fun c => c.isWhitespace)
  match cs with
  | '-' :: rest => (leadingNat rest).map (fun n => -(n : Int))
  | '+' :: rest => (leadingNat rest).map (fun n => (n : Int))
  | _ => (leadingNat cs).map (fun n => (n : Int))

structure TmuxSession where
  name : String
  pid : Int
deriving DecidableEq, Repr

/-- The line-parsing loop of `listSessions`: split on newlines, skip blank
lines, split at the first colon, require non-empty name and pid text, skip
pids that parse to `NaN`. -/
def parseSessionLines (stdout : String) : List TmuxSession :=
  ((jsTrim stdout).splitOn "\n").filterMap fun line =>
    if jsTrim line = "" then none
    else
      match splitFirstColon line.toList with
      | none => none
      | some (nameCs, pidCs) =>
        let name := String.mk nameCs
        let pidStr := String.mk pidCs
        if name ≠ "" ∧ pidStr ≠ "" then
          match jsParseInt pidStr with
          | some pid => some ⟨name, pid⟩
          | none => none
        else none

/-- `listSessions` of `src/worktree/tmux.ts`, as a function of the captured
`tmux list-sessions` result; `Except.error` models a thrown `AgentError`. -/
def listSessions (r : CmdResult) : Except String (List TmuxSession) :=
  if r.exitCode ≠ 0 then
    if jsIncludes r.stderr "no server running" || jsIncludes r.stderr "no sessions" then
      .ok []
    else
      .error ("Failed to list tmux sessions: " ++ jsTrim r.stderr)
  else
    .ok (parseSessionLines r.stdout)

/-- Ledger row fields of an active agent session that the reconciler reads. -/
structure AgentSession where
  agentName : String
  worktreePath : String
  branchName : String
  tmuxSession : String
  pid : Option Int
deriving DecidableEq, Repr

/-- Inputs of one reconciler run: the three enumeration results (worktree
listing, ledger open, multiplexer listing), the OS liveness and directory
probes, and this installation's session-name prefix. -/
structure ConsInput where
  worktrees : Except String (List String)
  ledger : Except String (List AgentSession)
  mux : Except String (List TmuxSession)
  pidAlive : Int → Bool
  dirExists : String → Bool
  sessionPfx : String

/-- Check 3: worktree directories on disk with no active ledger entry. -/
def orphanedWorktreesCheck (wts : List String) (ledger : List AgentSession) : DoctorCheck :=
  let orphans := wts.filter fun w => !(ledger.any fun s => s.worktreePath == w)
  if orphans.isEmpty then
    { name := "orphaned-worktrees", category := "consistency", status := .pass,
      message := "No orphaned worktrees" }
  else
    let n := orphans.length
    { name := "orphaned-worktrees", category := "consistency", status := .warn,
      message := s!"Found {n} orphaned worktree(s)", details := orphans, fixable := true }

/-- Check 5: multiplexer sessions carrying this installation's prefix with
no matching ledger entry. Sessions without the prefix are ignored. -/
def orphanedTmuxCheck (pfx : String) (ms : List TmuxSession)
    (ledger : List AgentSession) : DoctorCheck :=
  let orphans := ms.filter fun t =>
    strStarts t.name pfx && !(ledger.any fun s => s.tmuxSession == t.name)
  if orphans.isEmpty then
    { name := "orphaned-tmux", category := "consistency", status := .pass,
      message := "No orphaned tmux sessions" }
  else
    let n := orphans.length
    { name := "orphaned-tmux", category := "consistency", status := .warn,
      message := s!"Found {n} orphaned tmux session(s)",
      details := orphans.map (fun t => t.name), fixable := true }

/-- Check 6: ledger entries whose recorded pid fails the OS liveness probe. -/
def deadPidsCheck (alive : Int → Bool) (ledger : List AgentSession) : DoctorCheck :=
  let dead := ledger.filter fun s =>
    match s.pid with
    | some p => !alive p
    | none => false
  if dead.isEmpty then
    { name := "dead-pids", category := "consistency", status := .pass,
      message := "All recorded session PIDs are alive" }
  else
    let n := dead.length
    { name := "dead-pids", category := "consistency", status := .warn,
      message := s!"Found {n} session(s) with dead PIDs",
      details := dead.map (fun s => s.agentName), fixable := true }

/-- Check 7: ledger entries whose worktree path is gone from disk. -/
def missingWorktreesCheck (dirExists : String → Bool)
    (ledger : List AgentSession) : DoctorCheck :=
  let missing := ledger.filter fun s => !dirExists s.worktreePath
  if missing.isEmpty then
    { name := "missing-worktrees", category := "consistency", status := .pass,
      message := "All session worktrees exist" }
  else
    let n := missing.length
    { name := "missing-worktrees", category := "consistency", status := .warn,
      message := s!"Found {n} session(s) with missing worktrees",
      details := missing.map (fun s => s.agentName), fixable := true }

/-- Check 8: ledger entries whose recorded session name is absent from the
live multiplexer list. -/
def missingTmuxCheck (ms : List TmuxSession) (ledger : List AgentSession) : DoctorCheck :=
  let missing := ledger.filter fun s => !(ms.any fun t => t.name == s.tmuxSession)
  if missing.isEmpty then
    { name := "missing-tmux", category := "consistency", status := .pass,
      message := "All sessions have live tmux sessions" }
  else
    let n := missing.length
    { name := "missing-tmux", category := "consistency", status := .warn,
      message := s!"Found {n} session(s) with missing tmux sessions",
      details := missing.map (fun s => s.agentName), fixable := true }

/-- Modelled from the spec: the consistency reconciler `checkConsistency`
(its implementation, `src/doctor/consistency.ts`, is not among the sources;
only its test file is). The check battery and short-circuiting follow spec
section 4.4; check names follow the repository's consistency tests. A
worktree-listing or ledger-open failure aborts with a single `fail`
finding; a multiplexer-listing failure emits one `warn` finding and skips
the checks that need the session list (orphaned and missing multiplexer
sessions) while the remaining checks still run. -/
def checkConsistency (inp : ConsInput) : List DoctorCheck :=
  match inp.worktrees with
  | .error msg =>
    [{ name := "worktree-listing", category := "consistency", status := .fail,
       message := s!"Failed to list worktrees: {msg}" }]
  | .ok wts =>
    match inp.ledger with
    | .error msg =>
      [{ name := "worktree-listing", category := "consistency", status := .pass,
         message := "Worktree listing succeeded" },
       { name := "sessionstore-open", category := "consistency", status := .fail,
         message := s!"Failed to open session store: {msg}" }]
    | .ok ledger =>
      let head : List DoctorCheck :=
        [{ name := "worktree-listing", category := "consistency", status := .pass,
           message := "Worktree listing succeeded" },
         { name := "sessionstore-open", category := "consistency", status := .pass,
           message := "Session store opened" },
         orphanedWorktreesCheck wts ledger]
      match inp.mux with
      | .error msg =>
        head ++
          [{ name := "tmux-listing", category := "consistency", status := .warn,
             message := s!"Failed to list tmux sessions: {msg}" },
           deadPidsCheck inp.pidAlive ledger,
           missingWorktreesCheck inp.dirExists ledger]
      | .ok ms =>
        head ++
          [{ name := "tmux-listing", category := "consistency", status := .pass,
             message := "Listed tmux sessions" },
           orphanedTmuxCheck inp.sessionPfx ms ledger,
           deadPidsCheck inp.pidAlive ledger,
           missingWorktreesCheck inp.dirExists ledger,
           missingTmuxCheck ms ledger]

/-- Concrete parse oracle returning a fixed parsed value. -/
def constParse (v : JSVal) : String → Except String JSVal := fun _ => Except.ok v

/-- Concrete date oracle mapping the timestamp text "t1" to epoch 0. -/
def jdStale : JSVal → Option Int := fun v =>
  match v with
  | .str "t1" => some 0
  | _ => none

/-- Date oracle on which every timestamp is invalid. -/
def noDate : JSVal → Option Int := fun _ => none

/-- A structurally valid pending entry enqueued at timestamp "t1". -/
def goodEntryW : JSVal := .obj
  [("branchName", .str "feature/stale"), ("beadId", .str "beads-abc"),
   ("agentName", .str "agent"), ("filesModified", .arr [.str "src/a.ts"]),
   ("enqueuedAt", .str "t1"), ("status", .str "pending"), ("resolvedTier", .null)]

/-- An entry missing `beadId`, with a bad status and a bad tier. -/
def badEntryW : JSVal := .obj
  [("branchName", .str "feature/x"), ("agentName", .str "a"),
   ("filesModified", .arr []), ("enqueuedAt", .str "t2"),
   ("status", .str "weird"), ("resolvedTier", .str "nope")]

/-- An entry whose status is non-terminal while `resolvedTier` is set. -/
def pendingCleanEntry : JSVal := .obj
  [("branchName", .str "feature/a"), ("beadId", .str "beads-a"),
   ("agentName", .str "agent-a"), ("filesModified", .arr []),
   ("enqueuedAt", .str "t1"), ("status", .str "pending"),
   ("resolvedTier", .str "clean-merge")]

/-- An entry whose status is terminal while `resolvedTier` is null. -/
def mergedNullEntry : JSVal := .obj
  [("branchName", .str "feature/b"), ("beadId", .str "beads-b"),
   ("agentName", .str "agent-b"), ("filesModified", .arr []),
   ("enqueuedAt", .str "t1"), ("status", .str "merged"),
   ("resolvedTier", .null)]

/-- An otherwise valid entry from which the `resolvedTier` key is absent. -/
def noTierEntryW : JSVal := .obj
  [("branchName", .str "feature/n"), ("beadId", .str "beads-n"),
   ("agentName", .str "agent-n"), ("filesModified", .arr []),
   ("enqueuedAt", .str "t1"), ("status", .str "pending")]

/-- Two valid entries sharing the branch name "feature/dup". -/
def dupEntryA : JSVal := .obj
  [("branchName", .str "feature/dup"), ("beadId", .str "beads-a"),
   ("agentName", .str "agent-a"), ("filesModified", .arr []),
   ("enqueuedAt", .str "t1"), ("status", .str "pending"), ("resolvedTier", .null)]

def dupEntryB : JSVal := .obj
  [("branchName", .str "feature/dup"), ("beadId", .str "beads-b"),
   ("agentName", .str "agent-b"), ("filesModified", .arr []),
   ("enqueuedAt", .str "t1"), ("status", .str "merged"), ("resolvedTier", .str "clean-merge")]

/-- Reconciler run whose multiplexer listing fails. -/
def inpMuxFailW : ConsInput :=
  { worktrees := .ok [], ledger := .ok [], mux := .error "tmux: command not found",
    pidAlive := fun _ => true, dirExists := fun _ => true,
    sessionPfx := "overstory-testproject-" }

/-- Reconciler run where only sessions of other installations are live. -/
def inpForeignW : ConsInput :=
  { worktrees := .ok [], ledger := .ok [],
    mux := .ok [{ name := "overstory-otherproject-agent1", pid := 9999 },
                { name := "my-custom-session", pid := 8888 }],
    pidAlive := fun _ => true, dirExists := fun _ => true,
    sessionPfx := "overstory-testproject-" }

theorem ite_singleton_eq_nil {α : Type} {c : Prop} [Decidable c] {a : α} :
    (if c then [a] else []) = [] ↔ ¬c := by
  split <;> simp_all

theorem branch_cond (v : JSVal) :
    (isFalsy v || !isStringV v) = !isNonEmptyStr v := by
  cases v <;> simp [isFalsy, isStringV, isNonEmptyStr, bne]

theorem status_cond (v : JSVal) :
    (isFalsy v || !statusHas v) = !statusHas v := by
  cases v <;> simp [isFalsy, statusHas]
  intro h
  subst h
  decide

theorem tier_cond (v : JSVal) :
    (!isNullV v && !tierHas v) = !(isNullV v || tierHas v) := by
  simp

theorem entryIssues_eq_nil_iff (e : JSVal) :
    entryIssues e = [] ↔ entryStructurallyValid e = true := by
  unfold entryIssues entryStructurallyValid
  simp only [List.append_eq_nil, ite_singleton_eq_nil, branch_cond, status_cond, tier_cond]
  simp only [Bool.not_eq_true, Bool.and_eq_true, Bool.or_eq_true, Bool.not_eq_false,
    Bool.not_eq_true', Bool.not_eq_false']

theorem mem_invalidEntriesAux :
    ∀ (es : List JSVal) (i j : Nat) (e : JSVal),
      es.get? j = some e → isFalsy e = false → entryIssues e ≠ [] →
      entryDesc (i + j) e ∈ invalidEntriesAux i es := by
  intro es
  induction es with
  | nil => intro i j e h; simp at h
  | cons c rest ih =>
    intro i j e hj hf hne
    cases j with
    | zero =>
      have hce : c = e := by simpa using hj
      rw [← hce] at hf hne ⊢
      unfold invalidEntriesAux
      rw [hf]
      simp only [Bool.false_eq_true, if_false, Nat.add_zero]
      have hne2 : (entryIssues c).isEmpty = false := by
        cases h : entryIssues c
        · exact absurd h hne
        · rfl
      rw [hne2]
      simp
    | succ j' =>
      simp only [List.get?] at hj
      have h2 := ih (i + 1) j' e hj hf hne
      have harith : (i + 1) + j' = i + (j' + 1) := by omega
      rw [harith] at h2
      unfold invalidEntriesAux
      exact List.mem_append_right _ h2

theorem run_array (jp : String → Except String JSVal) (jd : JSVal → Option Int)
    (now : Int) (raw : String) (entries : List JSVal)
    (h1 : jsTrim raw ≠ "") (h2 : jp (jsTrim raw) = .ok (.arr entries)) :
    checkMergeQueue jp jd now (.present raw) = mergeEntryChecks jd now entries := by
  simp [checkMergeQueue, h1, h2]

theorem filter_fail_merge (jd : JSVal → Option Int) (now : Int) (es : List JSVal) :
    (mergeEntryChecks jd now es).filter (fun c => decide (c.status = CheckStatus.fail)) =
      if (invalidEntries es).isEmpty then []
      else
        [{ name := "merge-queue.json entries", category := "merge", status := CheckStatus.fail,
           message := s!"Found {(invalidEntries es).length} invalid queue entries",
           details := invalidEntries es, fixable := true }] := by
  unfold mergeEntryChecks
  by_cases h1 : (invalidEntries es).isEmpty <;>
    by_cases h2 : (staleDescs jd now es).isEmpty <;>
      by_cases h3 : (dupDetails es).isEmpty <;>
        simp [h1, h2, h3, List.filter_append, List.filter]

theorem filter_dup_merge (jd : JSVal → Option Int) (now : Int) (es : List JSVal) :
    (mergeEntryChecks jd now es).filter
        (fun c => decide (c.name = "merge-queue.json duplicates")) =
      if (dupDetails es).isEmpty then []
      else
        [{ name := "merge-queue.json duplicates", category := "merge",
           status := CheckStatus.warn,
           message := "Found duplicate branch entries in queue",
           details := dupDetails es, fixable := true }] := by
  unfold mergeEntryChecks
  by_cases h1 : (invalidEntries es).isEmpty <;>
    by_cases h2 : (staleDescs jd now es).isEmpty <;>
      by_cases h3 : (dupDetails es).isEmpty <;>
        simp [h1, h2, h3, List.filter_append, List.filter]

theorem statusIs_not_falsy {e : JSVal} {s : String} (h : statusIs e s = true) :
    isFalsy e = false := by
  cases e <;> simp_all [statusIs, getField, isFalsy]

theorem statusIs_ne {e : JSVal} {a b : String} (h : statusIs e a = true) (hne : a ≠ b) :
    statusIs e b = false := by
  unfold statusIs at h ⊢
  cases hg : getField e "status" <;> rw [hg] at h <;> simp_all [beq_iff_eq]

theorem staleDescOf_pos {jd : JSVal → Option Int} {now : Int} {e : JSVal} {t : Int}
    (hs : statusIs e "pending" = true ∨ statusIs e "merging" = true)
    (hd : jd (getField e "enqueuedAt") = some t)
    (hlt : staleThresholdMs < now - t) :
    staleDescOf jd now e = some (staleFmt e (now - t)) := by
  have hf : isFalsy e = false := by
    rcases hs with h | h
    · exact statusIs_not_falsy h
    · exact statusIs_not_falsy h
  have hor : (statusIs e "pending" || statusIs e "merging") = true := by
    rcases hs with h | h <;> simp [h]
  simp [staleDescOf, hf, hd, hor, hlt]

theorem staleDescOf_terminal {jd : JSVal → Option Int} {now : Int} {e : JSVal}
    (hs : statusIs e "merged" = true ∨ statusIs e "conflict" = true ∨
      statusIs e "failed" = true) :
    staleDescOf jd now e = none := by
  have hp : statusIs e "pending" = false := by
    rcases hs with h | h | h <;> exact statusIs_ne h (by decide)
  have hm : statusIs e "merging" = false := by
    rcases hs with h | h | h <;> exact statusIs_ne h (by decide)
  unfold staleDescOf
  cases hf : isFalsy e
  · cases hd : jd (getField e "enqueuedAt") <;> simp [hd, hp, hm]
  · simp

theorem filter_stale_merge (jd : JSVal → Option Int) (now : Int) (es : List JSVal) :
    (mergeEntryChecks jd now es).filter
        (fun c => decide (c.name = "merge-queue.json staleness")) =
      if (staleDescs jd now es).isEmpty then []
      else
        [{ name := "merge-queue.json staleness", category := "merge",
           status := CheckStatus.warn,
           message := s!"Found {(staleDescs jd now es).length} potentially stale queue entries",
           details := staleDescs jd now es, fixable := true }] := by
  unfold mergeEntryChecks
  by_cases h1 : (invalidEntries es).isEmpty <;>
    by_cases h2 : (staleDescs jd now es).isEmpty <;>
      by_cases h3 : (dupDetails es).isEmpty <;>
        simp [h1, h2, h3, List.filter_append, List.filter]

theorem stale_record_mem (jd : JSVal → Option Int) (now : Int) (es : List JSVal)
    (h : staleDescs jd now es ≠ []) :
    ({ name := "merge-queue.json staleness", category := "merge",
       status := CheckStatus.warn,
       message := s!"Found {(staleDescs jd now es).length} potentially stale queue entries",
       details := staleDescs jd now es, fixable := true } : DoctorCheck) ∈
      mergeEntryChecks jd now es := by
  have h2 : (staleDescs jd now es).isEmpty = false := by
    cases hh : staleDescs jd now es
    · exact absurd hh h
    · rfl
  unfold mergeEntryChecks
  by_cases h1 : (invalidEntries es).isEmpty <;>
    by_cases h3 : (dupDetails es).isEmpty <;>
      simp [h1, h2, h3]

theorem sv_of_true {x b : JSVal} (h : sameValueZero x b = true) :
    x = b ∧ isPrim b = true := by
  cases x <;> cases b <;> simp_all [sameValueZero, isPrim, beq_iff_eq]

theorem mem_of_mem_dedupSVAux :
    ∀ (bs seen : List JSVal) (b : JSVal), b ∈ dedupSVAux seen bs → b ∈ bs := by
  intro bs
  induction bs with
  | nil => intro seen b h; simp [dedupSVAux] at h
  | cons c rest ih =>
    intro seen b h
    unfold dedupSVAux at h
    cases hany : seen.any (fun x => sameValueZero x c) <;> rw [hany] at h
    · simp only [Bool.false_eq_true, if_false, List.mem_cons] at h
      rcases h with rfl | h
      · exact List.mem_cons_self _ _
      · exact List.mem_cons_of_mem _ (ih _ _ h)
    · simp only [if_true] at h
      exact List.mem_cons_of_mem _ (ih _ _ h)

theorem mem_dedupSVAux_of :
    ∀ (bs seen : List JSVal) (b : JSVal), b ∈ bs → isPrim b = true →
      seen.any (fun x => sameValueZero x b) = false → b ∈ dedupSVAux seen bs := by
  intro bs
  induction bs with
  | nil => intro seen b h; simp at h
  | cons c rest ih =>
    intro seen b hb hp hs
    unfold dedupSVAux
    rcases List.mem_cons.mp hb with rfl | hbr
    · rw [hs]
      simp only [Bool.false_eq_true, if_false]
      exact List.mem_cons_self _ _
    · cases hany : seen.any (fun x => sameValueZero x c)
      · simp only [Bool.false_eq_true, if_false, List.mem_cons]
        by_cases hcb : sameValueZero c b = true
        · exact Or.inl ((sv_of_true hcb).1.symm)
        · refine Or.inr (ih (seen ++ [c]) b hbr hp ?_)
          have hcb2 : sameValueZero c b = false := by
            cases hx : sameValueZero c b
            · rfl
            · exact absurd hx hcb
          simp [List.any_append, hs, hcb2]
      · simp only [if_true]
        exact ih seen b hbr hp hs

theorem dupDetails_mem (entries : List JSVal) (b : JSVal)
    (hb : b ∈ truthyBranches entries)
    (h2 : 2 ≤ countSV b (truthyBranches entries)) :
    dupFmt b (countSV b (truthyBranches entries)) ∈ dupDetails entries := by
  have hfil : (truthyBranches entries).filter (fun x => sameValueZero x b) ≠ [] := by
    intro hnil
    have : countSV b (truthyBranches entries) = 0 := by
      unfold countSV
      rw [hnil]
      rfl
    omega
  have hp : isPrim b = true := by
    obtain ⟨x, hx⟩ := List.exists_mem_of_ne_nil _ hfil
    exact (sv_of_true (List.mem_filter.mp hx).2).2
  have hd : b ∈ dedupSVAux [] (truthyBranches entries) :=
    mem_dedupSVAux_of _ [] b hb hp (by simp)
  unfold dupDetails
  apply List.mem_filterMap.mpr
  refine ⟨b, hd, ?_⟩
  rw [if_pos (show 1 < countSV b (truthyBranches entries) by omega)]

theorem dupDetails_nil (entries : List JSVal)
    (h : ∀ b ∈ truthyBranches entries, countSV b (truthyBranches entries) ≤ 1) :
    dupDetails entries = [] := by
  unfold dupDetails
  apply List.filterMap_eq_nil_iff.mpr
  intro b hbd
  have hb := mem_of_mem_dedupSVAux _ _ _ hbd
  have hle := h b hb
  simp only []
  rw [if_neg (by omega)]

theorem orphanedWorktreesCheck_name (w : List String) (l : List AgentSession) :
    (orphanedWorktreesCheck w l).name = "orphaned-worktrees" := by
  unfold orphanedWorktreesCheck
  dsimp only
  split <;> rfl

theorem orphanedWorktreesCheck_ne_fail (w : List String) (l : List AgentSession) :
    (orphanedWorktreesCheck w l).status ≠ CheckStatus.fail := by
  unfold orphanedWorktreesCheck
  dsimp only
  split <;> simp

theorem orphanedTmuxCheck_name (p : String) (ms : List TmuxSession) (l : List AgentSession) :
    (orphanedTmuxCheck p ms l).name = "orphaned-tmux" := by
  unfold orphanedTmuxCheck
  dsimp only
  split <;> rfl

theorem orphanedTmuxCheck_ne_fail (p : String) (ms : List TmuxSession) (l : List AgentSession) :
    (orphanedTmuxCheck p ms l).status ≠ CheckStatus.fail := by
  unfold orphanedTmuxCheck
  dsimp only
  split <;> simp

theorem orphanedTmuxCheck_details_sub (p : String) (ms : List TmuxSession)
    (l : List AgentSession) :
    ∀ d ∈ (orphanedTmuxCheck p ms l).details,
      ∃ t ∈ ms, t.name = d ∧ strStarts t.name p = true := by
  unfold orphanedTmuxCheck
  dsimp only
  split
  · simp
  · intro d hd
    simp only [List.mem_map] at hd
    obtain ⟨t, ht, rfl⟩ := hd
    have ht2 := List.mem_filter.mp ht
    refine ⟨t, ht2.1, rfl, ?_⟩
    have := ht2.2
    simp only [Bool.and_eq_true] at this
    exact this.1

theorem orphanedTmuxCheck_all_foreign (p : String) (ms : List TmuxSession)
    (l : List AgentSession) (h : ∀ t ∈ ms, strStarts t.name p = false) :
    orphanedTmuxCheck p ms l =
      { name := "orphaned-tmux", category := "consistency", status := CheckStatus.pass,
        message := "No orphaned tmux sessions" } := by
  unfold orphanedTmuxCheck
  dsimp only
  have hf : (ms.filter fun t =>
      strStarts t.name p && !(l.any fun s => s.tmuxSession == t.name)) = [] := by
    apply List.filter_eq_nil_iff.mpr
    intro t ht
    simp [h t ht]
  rw [hf]
  rfl

theorem deadPidsCheck_name (a : Int → Bool) (l : List AgentSession) :
    (deadPidsCheck a l).name = "dead-pids" := by
  unfold deadPidsCheck
  dsimp only
  split <;> rfl

theorem deadPidsCheck_ne_fail (a : Int → Bool) (l : List AgentSession) :
    (deadPidsCheck a l).status ≠ CheckStatus.fail := by
  unfold deadPidsCheck
  dsimp only
  split <;> simp

theorem missingWorktreesCheck_name (d : String → Bool) (l : List AgentSession) :
    (missingWorktreesCheck d l).name = "missing-worktrees" := by
  unfold missingWorktreesCheck
  dsimp only
  split <;> rfl

theorem missingWorktreesCheck_ne_fail (d : String → Bool) (l : List AgentSession) :
    (missingWorktreesCheck d l).status ≠ CheckStatus.fail := by
  unfold missingWorktreesCheck
  dsimp only
  split <;> simp

theorem missingTmuxCheck_name (ms : List TmuxSession) (l : List AgentSession) :
    (missingTmuxCheck ms l).name = "missing-tmux" := by
  unfold missingTmuxCheck
  dsimp only
  split <;> rfl

theorem missingTmuxCheck_ne_fail (ms : List TmuxSession) (l : List AgentSession) :
    (missingTmuxCheck ms l).status ≠ CheckStatus.fail := by
  unfold missingTmuxCheck
  dsimp only
  split <;> simp

theorem checkConsistency_mux_error (inp : ConsInput) (wts : List String)
    (ledger : List AgentSession) (msg : String)
    (hw : inp.worktrees = .ok wts) (hl : inp.ledger = .ok ledger)
    (hm : inp.mux = .error msg) :
    checkConsistency inp =
      [{ name := "worktree-listing", category := "consistency", status := CheckStatus.pass,
         message := "Worktree listing succeeded" },
       { name := "sessionstore-open", category := "consistency", status := CheckStatus.pass,
         message := "Session store opened" },
       orphanedWorktreesCheck wts ledger,
       { name := "tmux-listing", category := "consistency", status := CheckStatus.warn,
         message := s!"Failed to list tmux sessions: {msg}" },
       deadPidsCheck inp.pidAlive ledger,
       missingWorktreesCheck inp.dirExists ledger] := by
  obtain ⟨w, l, m, pa, de, px⟩ := inp
  simp only at hw hl hm
  subst hw hl hm
  rfl

theorem checkConsistency_mux_ok (inp : ConsInput) (wts : List String)
    (ledger : List AgentSession) (ms : List TmuxSession)
    (hw : inp.worktrees = .ok wts) (hl : inp.ledger = .ok ledger)
    (hm : inp.mux = .ok ms) :
    checkConsistency inp =
      [{ name := "worktree-listing", category := "consistency", status := CheckStatus.pass,
         message := "Worktree listing succeeded" },
       { name := "sessionstore-open", category := "consistency", status := CheckStatus.pass,
         message := "Session store opened" },
       orphanedWorktreesCheck wts ledger,
       { name := "tmux-listing", category := "consistency", status := CheckStatus.pass,
         message := "Listed tmux sessions" },
       orphanedTmuxCheck inp.sessionPfx ms ledger,
       deadPidsCheck inp.pidAlive ledger,
       missingWorktreesCheck inp.dirExists ledger,
       missingTmuxCheck ms ledger] := by
  obtain ⟨w, l, m, pa, de, px⟩ := inp
  simp only at hw hl hm
  subst hw hl hm
  rfl

/-- C8: when the merge-queue file is absent, or exists but trims to the
empty string, checkMergeQueue returns exactly one finding with status
pass (absence is normal for a fresh installation / the queue is empty),
and reports no fail and no warn. -/
theorem mergeQueue_missing_or_empty_pass
    (jp : String → Except String JSVal) (jd : JSVal → Option Int) (now : Int) :
    checkMergeQueue jp jd now .absent =
      [{ name := "merge-queue.json exists", category := "merge", status := CheckStatus.pass,
         message := "No merge queue file (normal for new installations or no merges yet)" }] ∧
    ∀ raw : String, jsTrim raw = "" →
      checkMergeQueue jp jd now (.present raw) =
        [{ name := "merge-queue.json format", category := "merge", status := CheckStatus.pass,
           message := "Merge queue is empty" }] := by
  refine ⟨rfl, ?_⟩
  intro raw h
  simp [checkMergeQueue, h]

/-- Witness for the C8 theorem: an absent file and a whitespace-only file
each yield the single pass finding. -/
theorem mergeQueue_missing_or_empty_pass_witness :
    checkMergeQueue (constParse .null) noDate 0 .absent =
      [{ name := "merge-queue.json exists", category := "merge", status := CheckStatus.pass,
         message := "No merge queue file (normal for new installations or no merges yet)" }] ∧
    checkMergeQueue (constParse .null) noDate 0 (.present "  \n ") =
      [{ name := "merge-queue.json format", category := "merge", status := CheckStatus.pass,
         message := "Merge queue is empty" }] :=
  ⟨(mergeQueue_missing_or_empty_pass (constParse .null) noDate 0).1,
   (mergeQueue_missing_or_empty_pass (constParse .null) noDate 0).2 "  \n " (by decide)⟩

/-- C5: when the merge-queue file parses to a non-array value,
checkMergeQueue returns exactly one finding, a fixable fail whose message
contains "must be a JSON array", and no entry, staleness or duplicate
checks run. -/
theorem mergeQueue_non_array_fail
    (jp : String → Except String JSVal) (jd : JSVal → Option Int) (now : Int)
    (raw : String) (v : JSVal)
    (h1 : jsTrim raw ≠ "") (h2 : jp (jsTrim raw) = .ok v) (hv : isArrayV v = false) :
    checkMergeQueue jp jd now (.present raw) =
      [{ name := "merge-queue.json format", category := "merge", status := CheckStatus.fail,
         message := "Merge queue must be a JSON array",
         details := [s!"Found: {jsTypeof v}", "Expected: array of MergeEntry objects"],
         fixable := true }] ∧
    "Merge queue must be a JSON array" = "Merge queue " ++ "must be a JSON array" := by
  refine ⟨?_, rfl⟩
  cases v <;> simp_all [checkMergeQueue, isArrayV]

/-- Witness for the C5 theorem at the object from the spec scenario. -/
theorem mergeQueue_non_array_fail_witness :
    checkMergeQueue (constParse (.obj [("entries", .arr [])])) noDate 0 (.present "x") =
      [{ name := "merge-queue.json format", category := "merge", status := CheckStatus.fail,
         message := "Merge queue must be a JSON array",
         details := ["Found: object", "Expected: array of MergeEntry objects"],
         fixable := true }] := by
  have h := (mergeQueue_non_array_fail (constParse (.obj [("entries", .arr [])])) noDate 0
      "x" (.obj [("entries", .arr [])]) (by decide) rfl rfl).1
  exact h.trans (by decide)

/-- C9: a non-zero tmux exit whose stderr mentions "no server running" or
"no sessions" makes listSessions return the empty list; any other
non-zero exit raises an AgentError. -/
theorem listSessions_no_server (r : CmdResult) (h : r.exitCode ≠ 0) :
    ((jsIncludes r.stderr "no server running" = true ∨
        jsIncludes r.stderr "no sessions" = true) → listSessions r = .ok []) ∧
    (jsIncludes r.stderr "no server running" = false →
      jsIncludes r.stderr "no sessions" = false →
      listSessions r = .error ("Failed to list tmux sessions: " ++ jsTrim r.stderr)) := by
  constructor
  · intro hor
    have hc : (jsIncludes r.stderr "no server running" ||
        jsIncludes r.stderr "no sessions") = true := by
      rcases hor with h1 | h1 <;> simp [h1]
    simp [listSessions, h, hc]
  · intro h1 h2
    have hc : (jsIncludes r.stderr "no server running" ||
        jsIncludes r.stderr "no sessions") = false := by
      simp [h1, h2]
    simp [listSessions, h, hc]

/-- Witness for the C9 theorem at the two stderr outputs of the tests. -/
theorem listSessions_no_server_witness :
    listSessions ⟨"", "no server running on /tmp/tmux-501/default", 1⟩ = .ok [] ∧
    listSessions ⟨"", "protocol version mismatch", 1⟩ =
      .error ("Failed to list tmux sessions: " ++ jsTrim "protocol version mismatch") :=
  ⟨(listSessions_no_server ⟨"", "no server running on /tmp/tmux-501/default", 1⟩
      (by decide)).1 (Or.inl (by decide)),
   (listSessions_no_server ⟨"", "protocol version mismatch", 1⟩
      (by decide)).2 (by decide) (by decide)⟩

/-- C2 counterexample: an entry with status pending and resolvedTier
clean-merge, and an entry with status merged and resolvedTier null, both
pass validation (no fail finding), contradicting the claim that they do
not. -/
theorem mergeQueue_accepts_tier_status_mismatch :
    getField pendingCleanEntry "status" = JSVal.str "pending" ∧
    getField pendingCleanEntry "resolvedTier" = JSVal.str "clean-merge" ∧
    entryIssues pendingCleanEntry = [] ∧
    getField mergedNullEntry "status" = JSVal.str "merged" ∧
    getField mergedNullEntry "resolvedTier" = JSVal.null ∧
    entryIssues mergedNullEntry = [] ∧
    (checkMergeQueue (constParse (.arr [pendingCleanEntry, mergedNullEntry])) noDate 0
        (.present "[es]")).filter (fun c => decide (c.status = CheckStatus.fail)) = [] :=
  ⟨rfl, rfl, rfl, rfl, rfl, rfl, by decide⟩

/-- C2 (amended): checkMergeQueue validates status and resolvedTier as
independent field checks and does not enforce the cross-field invariant
that resolvedTier is null iff the status is non-terminal; entries
violating that invariant in either direction are accepted and the run
reports all entries valid. -/
theorem mergeQueue_no_cross_field_invariant :
    entryStructurallyValid pendingCleanEntry = true ∧
    entryStructurallyValid mergedNullEntry = true ∧
    checkMergeQueue (constParse (.arr [pendingCleanEntry, mergedNullEntry])) noDate 0
        (.present "[es]") =
      [{ name := "merge-queue.json format", category := "merge", status := CheckStatus.pass,
         message := "All queue entries are valid" }] :=
  ⟨rfl, rfl, rfl⟩

/-- C1 (amended): for a file parsing to a JSON array, each truthy entry is
validated against exactly the structural field rules (falsy JSON entries
such as null are skipped without report); all violations across the
truthy entries are collected and reported as exactly one fail finding
whose details enumerate every offending entry with its issues, and an
invalid entry never aborts validation of the remaining entries. -/
theorem mergeQueue_entry_validation
    (jp : String → Except String JSVal) (jd : JSVal → Option Int) (now : Int)
    (raw : String) (entries : List JSVal)
    (h1 : jsTrim raw ≠ "") (h2 : jp (jsTrim raw) = .ok (.arr entries)) :
    (∀ e : JSVal, entryIssues e = [] ↔ entryStructurallyValid e = true) ∧
    (invalidEntries entries ≠ [] →
      (checkMergeQueue jp jd now (.present raw)).filter
          (fun c => decide (c.status = CheckStatus.fail)) =
        [{ name := "merge-queue.json entries", category := "merge",
           status := CheckStatus.fail,
           message := s!"Found {(invalidEntries entries).length} invalid queue entries",
           details := invalidEntries entries, fixable := true }]) ∧
    (invalidEntries entries = [] →
      (checkMergeQueue jp jd now (.present raw)).filter
          (fun c => decide (c.status = CheckStatus.fail)) = []) ∧
    (∀ (j : Nat) (e : JSVal), entries.get? j = some e → isFalsy e = false →
      entryIssues e ≠ [] → entryDesc j e ∈ invalidEntries entries) := by
  refine ⟨entryIssues_eq_nil_iff, ?_, ?_, ?_⟩
  · intro hne
    have hie : (invalidEntries entries).isEmpty = false := by
      cases hh : invalidEntries entries
      · exact absurd hh hne
      · rfl
    rw [run_array jp jd now raw entries h1 h2, filter_fail_merge]
    simp [hie]
  · intro hnil
    rw [run_array jp jd now raw entries h1 h2, filter_fail_merge]
    simp [hnil]
  · intro j e hj hf hne
    have h := mem_invalidEntriesAux entries 0 j e hj hf hne
    simpa [invalidEntries] using h

/-- C1 counterexample: the array [null] has an entry violating the
structural rules (its branchName is not a non-empty string), yet the run
reports all entries valid and produces no fail finding: falsy entries are
skipped, not validated. -/
theorem mergeQueue_null_entry_not_reported :
    entryStructurallyValid JSVal.null = false ∧
    isNonEmptyStr (getField JSVal.null "branchName") = false ∧
    checkMergeQueue (constParse (.arr [JSVal.null])) noDate 0 (.present "[null]") =
      [{ name := "merge-queue.json format", category := "merge", status := CheckStatus.pass,
         message := "All queue entries are valid" }] :=
  ⟨rfl, rfl, rfl⟩

/-- Witness for the C1 theorem at a queue holding one valid and one
invalid entry. -/
theorem mergeQueue_entry_validation_witness :
    (checkMergeQueue (constParse (.arr [goodEntryW, badEntryW])) noDate 0
        (.present "[es]")).filter (fun c => decide (c.status = CheckStatus.fail)) =
      [{ name := "merge-queue.json entries", category := "merge", status := CheckStatus.fail,
         message := "Found 1 invalid queue entries",
         details := ["Entry 1 (feature/x): missing or invalid beadId, invalid status: weird, invalid resolvedTier: nope"],
         fixable := true }] := by
  have h := (mergeQueue_entry_validation (constParse (.arr [goodEntryW, badEntryW])) noDate 0
      "[es]" [goodEntryW, badEntryW] (by decide) rfl).2.1 (by decide)
  exact h.trans (by decide)

/-- C3: a pending or merging entry whose parsed enqueue time lies more
than 24 hours before now is listed in the emitted warn staleness finding
(branch, status, age in hours); an entry with terminal status never
contributes a staleness description; any staleness finding is a warn
finding whose details are exactly the computed stale descriptions. -/
theorem mergeQueue_staleness
    (jp : String → Except String JSVal) (jd : JSVal → Option Int) (now : Int)
    (raw : String) (entries : List JSVal)
    (h1 : jsTrim raw ≠ "") (h2 : jp (jsTrim raw) = .ok (.arr entries)) :
    (∀ c ∈ checkMergeQueue jp jd now (.present raw),
      c.name = "merge-queue.json staleness" →
      c.status = CheckStatus.warn ∧ c.details = staleDescs jd now entries) ∧
    (∀ e ∈ entries, ∀ t : Int,
      (statusIs e "pending" = true ∨ statusIs e "merging" = true) →
      jd (getField e "enqueuedAt") = some t →
      staleThresholdMs < now - t →
      staleDescOf jd now e = some (staleFmt e (now - t)) ∧
      ∃ c ∈ checkMergeQueue jp jd now (.present raw),
        c.name = "merge-queue.json staleness" ∧ c.status = CheckStatus.warn ∧
        staleFmt e (now - t) ∈ c.details) ∧
    (∀ e : JSVal,
      (statusIs e "merged" = true ∨ statusIs e "conflict" = true ∨
        statusIs e "failed" = true) →
      staleDescOf jd now e = none) := by
  rw [run_array jp jd now raw entries h1 h2]
  refine ⟨?_, ?_, fun e hs => staleDescOf_terminal hs⟩
  · intro c hc hname
    have hmem : c ∈ (mergeEntryChecks jd now entries).filter
        (fun c => decide (c.name = "merge-queue.json staleness")) :=
      List.mem_filter.mpr ⟨hc, by simp [hname]⟩
    rw [filter_stale_merge] at hmem
    by_cases hst : (staleDescs jd now entries).isEmpty
    · rw [if_pos hst] at hmem
      simp at hmem
    · rw [if_neg hst] at hmem
      simp only [List.mem_singleton] at hmem
      rw [hmem]
      exact ⟨rfl, rfl⟩
  · intro e he t hs hd hlt
    have hpos := staleDescOf_pos hs hd hlt
    refine ⟨hpos, ?_⟩
    have hmem : staleFmt e (now - t) ∈ staleDescs jd now entries :=
      List.mem_filterMap.mpr ⟨e, he, hpos⟩
    have hne : staleDescs jd now entries ≠ [] := List.ne_nil_of_mem hmem
    exact ⟨_, stale_record_mem jd now entries hne, rfl, rfl, hmem⟩

/-- Witness for the C3 theorem: a pending entry 25 hours old is listed;
the same situation with status merged yields no stale description. -/
theorem mergeQueue_staleness_witness :
    staleDescOf jdStale (25 * 60 * 60 * 1000) goodEntryW =
      some (staleFmt goodEntryW (25 * 60 * 60 * 1000 - 0)) ∧
    (∃ c ∈ checkMergeQueue (constParse (.arr [goodEntryW])) jdStale (25 * 60 * 60 * 1000)
        (.present "[e]"),
      c.name = "merge-queue.json staleness" ∧ c.status = CheckStatus.warn ∧
      staleFmt goodEntryW (25 * 60 * 60 * 1000 - 0) ∈ c.details) ∧
    staleDescOf jdStale (25 * 60 * 60 * 1000) dupEntryB = none := by
  have h := mergeQueue_staleness (constParse (.arr [goodEntryW])) jdStale
      (25 * 60 * 60 * 1000) "[e]" [goodEntryW] (by decide) rfl
  have h2 := h.2.1 goodEntryW (List.Mem.head _) 0 (Or.inl (by decide)) rfl (by decide)
  exact ⟨h2.1, h2.2, h.2.2 dupEntryB (Or.inl (by decide))⟩

/-- C4: a branch value occurring at least twice among the truthy branch
names yields exactly one warn duplicates finding whose details list each
duplicated branch with its occurrence count; when no branch value
repeats, no duplicates finding is produced. -/
theorem mergeQueue_duplicates
    (jp : String → Except String JSVal) (jd : JSVal → Option Int) (now : Int)
    (raw : String) (entries : List JSVal)
    (h1 : jsTrim raw ≠ "") (h2 : jp (jsTrim raw) = .ok (.arr entries)) :
    ((∃ b ∈ truthyBranches entries, 2 ≤ countSV b (truthyBranches entries)) →
      (checkMergeQueue jp jd now (.present raw)).filter
          (fun c => decide (c.name = "merge-queue.json duplicates")) =
        [{ name := "merge-queue.json duplicates", category := "merge",
           status := CheckStatus.warn,
           message := "Found duplicate branch entries in queue",
           details := dupDetails entries, fixable := true }] ∧
      ∀ b ∈ truthyBranches entries, 2 ≤ countSV b (truthyBranches entries) →
        dupFmt b (countSV b (truthyBranches entries)) ∈ dupDetails entries) ∧
    ((∀ b ∈ truthyBranches entries, countSV b (truthyBranches entries) ≤ 1) →
      (checkMergeQueue jp jd now (.present raw)).filter
          (fun c => decide (c.name = "merge-queue.json duplicates")) = []) := by
  rw [run_array jp jd now raw entries h1 h2]
  constructor
  · intro hex
    obtain ⟨b0, hb0, hc0⟩ := hex
    have hmem := dupDetails_mem entries b0 hb0 hc0
    have hie : (dupDetails entries).isEmpty = false := by
      cases hh : dupDetails entries
      · exact absurd hh (List.ne_nil_of_mem hmem)
      · rfl
    constructor
    · rw [filter_dup_merge]
      simp [hie]
    · intro b hb hcb
      exact dupDetails_mem entries b hb hcb
  · intro hall
    rw [filter_dup_merge]
    simp [dupDetails_nil entries hall]

/-- Witness for the C4 theorem: two entries sharing a branch yield the
warn finding with count 2; a single-entry queue yields none. -/
theorem mergeQueue_duplicates_witness :
    (checkMergeQueue (constParse (.arr [dupEntryA, dupEntryB])) noDate 0
        (.present "[es]")).filter
        (fun c => decide (c.name = "merge-queue.json duplicates")) =
      [{ name := "merge-queue.json duplicates", category := "merge",
         status := CheckStatus.warn,
         message := "Found duplicate branch entries in queue",
         details := ["feature/dup (appears 2 times)"], fixable := true }] ∧
    (checkMergeQueue (constParse (.arr [goodEntryW])) noDate 0 (.present "[e]")).filter
        (fun c => decide (c.name = "merge-queue.json duplicates")) = [] := by
  constructor
  · have h := ((mergeQueue_duplicates (constParse (.arr [dupEntryA, dupEntryB])) noDate 0
        "[es]" [dupEntryA, dupEntryB] (by decide) rfl).1
        ⟨.str "feature/dup", List.Mem.head _, by decide⟩).1
    exact h.trans (by decide)
  · exact (mergeQueue_duplicates (constParse (.arr [goodEntryW])) noDate 0
      "[e]" [goodEntryW] (by decide) rfl).2 (by decide)

/-- C10: an entry from which the resolvedTier key is absent (the access
yields undefined, not null) is reported with an invalid-resolvedTier
issue; only an exact null exempts the field, and the run reports the
entry in a fail finding. -/
theorem mergeQueue_undefined_tier_invalid
    (e : JSVal) (hf : isFalsy e = false)
    (hrt : getField e "resolvedTier" = JSVal.undefined) :
    "invalid resolvedTier: undefined" ∈ entryIssues e ∧
    entryIssues e ≠ [] ∧
    ∀ (jp : String → Except String JSVal) (jd : JSVal → Option Int) (now : Int)
      (raw : String),
      jsTrim raw ≠ "" → jp (jsTrim raw) = .ok (.arr [e]) →
      ∃ c ∈ checkMergeQueue jp jd now (.present raw),
        c.name = "merge-queue.json entries" ∧ c.status = CheckStatus.fail ∧
        entryDesc 0 e ∈ c.details := by
  have htm : tierIssueMsg e = "invalid resolvedTier: undefined" := by
    unfold tierIssueMsg
    rw [hrt]
    rfl
  have hcond : (!isNullV (getField e "resolvedTier") &&
      !tierHas (getField e "resolvedTier")) = true := by
    rw [hrt]
    rfl
  have hmem : "invalid resolvedTier: undefined" ∈ entryIssues e := by
    unfold entryIssues
    refine List.mem_append_right _ ?_
    rw [hcond]
    simp [htm]
  refine ⟨hmem, List.ne_nil_of_mem hmem, ?_⟩
  intro jp jd now raw h1 h2
  rw [run_array jp jd now raw [e] h1 h2]
  have hie : (entryIssues e).isEmpty = false := by
    cases hh : entryIssues e
    · exact absurd hh (List.ne_nil_of_mem hmem)
    · rfl
  have hinv : invalidEntries [e] = [entryDesc 0 e] := by
    unfold invalidEntries invalidEntriesAux
    rw [hf, hie]
    simp [invalidEntriesAux]
  have hne : (invalidEntries [e]).isEmpty = false := by
    rw [hinv]
    rfl
  refine ⟨{ name := "merge-queue.json entries", category := "merge",
            status := CheckStatus.fail,
            message := s!"Found {(invalidEntries [e]).length} invalid queue entries",
            details := invalidEntries [e], fixable := true }, ?_, rfl, rfl, ?_⟩
  · unfold mergeEntryChecks
    simp [hne]
  · rw [hinv]
    exact List.Mem.head _

/-- Witness for the C10 theorem at an entry without a resolvedTier key. -/
theorem mergeQueue_undefined_tier_invalid_witness :
    "invalid resolvedTier: undefined" ∈ entryIssues noTierEntryW ∧
    ∃ c ∈ checkMergeQueue (constParse (.arr [noTierEntryW])) noDate 0 (.present "[e]"),
      c.name = "merge-queue.json entries" ∧ c.status = CheckStatus.fail ∧
      entryDesc 0 noTierEntryW ∈ c.details := by
  have h := mergeQueue_undefined_tier_invalid noTierEntryW rfl rfl
  exact ⟨h.1, h.2.2 (constParse (.arr [noTierEntryW])) noDate 0 "[e]" (by decide) rfl⟩

/-- C6: when the multiplexer listing fails, the reconciler emits one warn
finding saying it failed to list sessions, skips the checks that need the
session list (orphaned-tmux, missing-tmux), still runs the remaining
checks, and the failure never produces a fail finding. -/
theorem consistency_mux_failure (inp : ConsInput) (wts : List String)
    (ledger : List AgentSession) (msg : String)
    (hw : inp.worktrees = .ok wts) (hl : inp.ledger = .ok ledger)
    (hm : inp.mux = .error msg) :
    (∃ c ∈ checkConsistency inp, c.name = "tmux-listing" ∧ c.status = CheckStatus.warn ∧
      c.message = s!"Failed to list tmux sessions: {msg}") ∧
    (∀ c ∈ checkConsistency inp, c.name ≠ "orphaned-tmux" ∧ c.name ≠ "missing-tmux") ∧
    (∃ c ∈ checkConsistency inp, c.name = "dead-pids") ∧
    (∃ c ∈ checkConsistency inp, c.name = "missing-worktrees") ∧
    (∃ c ∈ checkConsistency inp, c.name = "orphaned-worktrees") ∧
    (∀ c ∈ checkConsistency inp, c.status ≠ CheckStatus.fail) := by
  rw [checkConsistency_mux_error inp wts ledger msg hw hl hm]
  refine ⟨?_, ?_,
    ⟨deadPidsCheck inp.pidAlive ledger, by simp, deadPidsCheck_name _ _⟩,
    ⟨missingWorktreesCheck inp.dirExists ledger, by simp, missingWorktreesCheck_name _ _⟩,
    ⟨orphanedWorktreesCheck wts ledger, by simp, orphanedWorktreesCheck_name _ _⟩, ?_⟩
  · refine ⟨{ name := "tmux-listing", category := "consistency",
              status := CheckStatus.warn,
              message := s!"Failed to list tmux sessions: {msg}" }, by simp, rfl, rfl, rfl⟩
  · intro c hc
    simp only [List.mem_cons, List.not_mem_nil, or_false] at hc
    rcases hc with rfl | rfl | rfl | rfl | rfl | rfl
    · exact ⟨by decide, by decide⟩
    · exact ⟨by decide, by decide⟩
    · exact ⟨by rw [orphanedWorktreesCheck_name]; decide,
        by rw [orphanedWorktreesCheck_name]; decide⟩
    · exact ⟨fun h => absurd h (by decide : ¬("tmux-listing" : String) = "orphaned-tmux"),
        fun h => absurd h (by decide : ¬("tmux-listing" : String) = "missing-tmux")⟩
    · exact ⟨by rw [deadPidsCheck_name]; decide, by rw [deadPidsCheck_name]; decide⟩
    · exact ⟨by rw [missingWorktreesCheck_name]; decide,
        by rw [missingWorktreesCheck_name]; decide⟩
  · intro c hc
    simp only [List.mem_cons, List.not_mem_nil, or_false] at hc
    rcases hc with rfl | rfl | rfl | rfl | rfl | rfl
    · decide
    · decide
    · exact orphanedWorktreesCheck_ne_fail wts ledger
    · exact fun h => absurd h (by decide : ¬CheckStatus.warn = CheckStatus.fail)
    · exact deadPidsCheck_ne_fail inp.pidAlive ledger
    · exact missingWorktreesCheck_ne_fail inp.dirExists ledger

/-- Witness for the C6 theorem at a run whose tmux listing fails. -/
theorem consistency_mux_failure_witness :
    (∃ c ∈ checkConsistency inpMuxFailW, c.name = "tmux-listing" ∧
      c.status = CheckStatus.warn ∧
      c.message = "Failed to list tmux sessions: tmux: command not found") ∧
    (∀ c ∈ checkConsistency inpMuxFailW, c.name ≠ "orphaned-tmux" ∧
      c.name ≠ "missing-tmux") ∧
    (∃ c ∈ checkConsistency inpMuxFailW, c.name = "dead-pids") ∧
    (∀ c ∈ checkConsistency inpMuxFailW, c.status ≠ CheckStatus.fail) := by
  have h := consistency_mux_failure inpMuxFailW [] [] "tmux: command not found" rfl rfl rfl
  obtain ⟨c, hc, hn, hs, hmsg⟩ := h.1
  exact ⟨⟨c, hc, hn, hs, hmsg.trans (by decide)⟩, h.2.1, h.2.2.1, h.2.2.2.2.2⟩

/-- C7: a multiplexer session whose name does not carry this
installation's prefix is never listed by the orphaned-session check; when
only foreign sessions exist, the orphaned-session check reports pass. -/
theorem consistency_ignores_foreign_sessions (inp : ConsInput) (wts : List String)
    (ledger : List AgentSession) (ms : List TmuxSession)
    (hw : inp.worktrees = .ok wts) (hl : inp.ledger = .ok ledger)
    (hm : inp.mux = .ok ms) :
    (∀ t ∈ ms, strStarts t.name inp.sessionPfx = false →
      ∀ c ∈ checkConsistency inp, c.name = "orphaned-tmux" → t.name ∉ c.details) ∧
    ((∀ t ∈ ms, strStarts t.name inp.sessionPfx = false) →
      ∃ c ∈ checkConsistency inp, c.name = "orphaned-tmux" ∧
        c.status = CheckStatus.pass ∧ c.message = "No orphaned tmux sessions") := by
  rw [checkConsistency_mux_ok inp wts ledger ms hw hl hm]
  constructor
  · intro t ht hforeign c hc hname
    simp only [List.mem_cons, List.not_mem_nil, or_false] at hc
    rcases hc with rfl | rfl | rfl | rfl | rfl | rfl | rfl | rfl
    · exact absurd hname (by decide)
    · exact absurd hname (by decide)
    · rw [orphanedWorktreesCheck_name] at hname
      exact absurd hname (by decide)
    · exact absurd hname (by decide)
    · intro hd
      obtain ⟨u, _, hun, hupfx⟩ := orphanedTmuxCheck_details_sub _ _ _ _ hd
      rw [hun] at hupfx
      rw [hupfx] at hforeign
      exact absurd hforeign (by decide)
    · rw [deadPidsCheck_name] at hname
      exact absurd hname (by decide)
    · rw [missingWorktreesCheck_name] at hname
      exact absurd hname (by decide)
    · rw [missingTmuxCheck_name] at hname
      exact absurd hname (by decide)
  · intro hall
    refine ⟨orphanedTmuxCheck inp.sessionPfx ms ledger, by simp,
      orphanedTmuxCheck_name _ _ _, ?_, ?_⟩
    · rw [orphanedTmuxCheck_all_foreign _ _ _ hall]
    · rw [orphanedTmuxCheck_all_foreign _ _ _ hall]

/-- Witness for the C7 theorem at a run where only sessions of other
installations are live. -/
theorem consistency_ignores_foreign_sessions_witness :
    (∀ c ∈ checkConsistency inpForeignW, c.name = "orphaned-tmux" →
      "my-custom-session" ∉ c.details) ∧
    ∃ c ∈ checkConsistency inpForeignW, c.name = "orphaned-tmux" ∧
      c.status = CheckStatus.pass ∧ c.message = "No orphaned tmux sessions" := by
  have h := consistency_ignores_foreign_sessions inpForeignW [] []
    [{ name := "overstory-otherproject-agent1", pid := 9999 },
     { name := "my-custom-session", pid := 8888 }] rfl rfl rfl
  refine ⟨?_, h.2 ?_⟩
  · exact h.1 ⟨"my-custom-session", 8888⟩ (List.Mem.tail _ (List.Mem.head _)) (by decide)
  · intro t ht
    simp only [List.mem_cons, List.not_mem_nil, or_false] at ht
    rcases ht with rfl | rfl
    · decide
    · decide
